import Mathlib

/-!
Verification of the ORB feature tool (`orb_module.js`): the descriptor
base64 codec, the JSON export/import of detection results, and the
descriptor matching pipeline (`matchToTarget`).

Numbers are embedded as `Nat` (bytes, indices, Hamming distances) and `ℚ`
(pixel coordinates, the ratio-test threshold).  Byte buffers are
`List Nat` with every element `< 256`.  Fallible operations return
`Except String`.
-/

namespace OrbMatcher

open scoped List

/-! ## Base64 codec

`_u8ToB64` builds a binary string from the bytes and applies the browser
builtin `btoa`; `_b64ToU8` applies `atob` and reads the char codes back.
`btoa`/`atob` are platform builtins, not part of the repository, so they
are modelled from the spec ("deterministic, reversible, alphabet-safe"
base64, RFC 4648 with `=` padding, which is what `btoa`/`atob` implement).
Strings are embedded as lists of ASCII codes. -/

/-- Modelled from the spec: the standard base64 alphabet used by `btoa`.
ASCII code of the alphabet character for a sextet `n` (0–63); the padding
symbol 64 maps to 61, the code of the padding character. -/
def b64Code (n : Nat) : Nat :=
  if n < 26 then 65 + n
  else if n < 52 then 97 + (n - 26)
  else if n < 62 then 48 + (n - 52)
  else if n = 62 then 43
  else if n = 63 then 47
  else 61

/-- Modelled from the spec: inverse alphabet lookup performed by `atob`.
ASCII code back to the sextet value; the padding character's code 61 (and
any out-of-alphabet code) maps to the padding symbol 64. -/
def b64Val (c : Nat) : Nat :=
  if 65 ≤ c ∧ c ≤ 90 then c - 65
  else if 97 ≤ c ∧ c ≤ 122 then 26 + (c - 97)
  else if 48 ≤ c ∧ c ≤ 57 then 52 + (c - 48)
  else if c = 43 then 62
  else if c = 47 then 63
  else 64

/-- Modelled from the spec: `btoa` groups the input bytes in threes and
emits one symbol (0–63) per sextet, padding the last group with the
symbol 64 (`=`). -/
def b64Symbols : List Nat → List Nat
  | [] => []
  | [b0] => [b0 / 4, b0 % 4 * 16, 64, 64]
  | [b0, b1] => [b0 / 4, b0 % 4 * 16 + b1 / 16, b1 % 16 * 4, 64]
  | b0 :: b1 :: b2 :: rest =>
      (b0 / 4) :: (b0 % 4 * 16 + b1 / 16) :: (b1 % 16 * 4 + b2 / 64) ::
        (b2 % 64) :: b64Symbols rest

/-- Modelled from the spec: `atob` consumes symbols in fours and emits
three bytes per group, or one/two bytes for a final padded group. -/
def b64Unsymbols : List Nat → List Nat
  | s0 :: s1 :: s2 :: s3 :: rest =>
      if s2 = 64 then [s0 * 4 + s1 / 16]
      else if s3 = 64 then [s0 * 4 + s1 / 16, s1 % 16 * 16 + s2 / 4]
      else (s0 * 4 + s1 / 16) :: (s1 % 16 * 16 + s2 / 4) ::
        (s2 % 4 * 64 + s3) :: b64Unsymbols rest
  | _ => []

/-- Embeds `ORBModule._u8ToB64`: byte list to base64 text (as ASCII codes). -/
def u8ToB64 (u8 : List Nat) : List Nat :=
  (b64Symbols u8).map b64Code

/-- Embeds `ORBModule._b64ToU8`: base64 text (as ASCII codes) back to bytes. -/
def b64ToU8 (b64 : List Nat) : List Nat :=
  b64Unsymbols (b64.map b64Val)

theorem b64Val_b64Code : ∀ n : Nat, n < 65 → b64Val (b64Code n) = n := by
  decide

theorem b64Symbols_le (l : List Nat) (h : ∀ b ∈ l, b < 256) :
    ∀ s ∈ b64Symbols l, s < 65 := by
  match l with
  | [] => simp [b64Symbols]
  | [b0] =>
    have hb0 := h b0 (by simp)
    simp only [b64Symbols, List.mem_cons, List.not_mem_nil, or_false]
    rintro s (rfl | rfl | rfl | rfl) <;> omega
  | [b0, b1] =>
    have hb0 := h b0 (by simp)
    have hb1 := h b1 (by simp)
    simp only [b64Symbols, List.mem_cons, List.not_mem_nil, or_false]
    rintro s (rfl | rfl | rfl | rfl) <;> omega
  | b0 :: b1 :: b2 :: rest =>
    have hb0 := h b0 (by simp)
    have hb1 := h b1 (by simp)
    have hb2 := h b2 (by simp)
    have ih := b64Symbols_le rest (fun b hb => h b (by simp [hb]))
    simp only [b64Symbols, List.mem_cons]
    rintro s (rfl | rfl | rfl | rfl | hs)
    · omega
    · omega
    · omega
    · omega
    · exact ih s hs

theorem b64Unsymbols_b64Symbols (l : List Nat) (h : ∀ b ∈ l, b < 256) :
    b64Unsymbols (b64Symbols l) = l := by
  match l with
  | [] => decide
  | [b0] =>
    have hb0 := h b0 (by simp)
    simp only [b64Symbols, b64Unsymbols, if_true, List.cons.injEq, and_true,
      if_pos]
    omega
  | [b0, b1] =>
    have hb0 := h b0 (by simp)
    have hb1 := h b1 (by simp)
    have h2 : ¬ (b1 % 16 * 4 = 64) := by omega
    simp only [b64Symbols, b64Unsymbols, if_neg h2, if_true, List.cons.injEq,
      and_true, if_pos]
    constructor <;> omega
  | b0 :: b1 :: b2 :: rest =>
    have hb0 := h b0 (by simp)
    have hb1 := h b1 (by simp)
    have hb2 := h b2 (by simp)
    have ih := b64Unsymbols_b64Symbols rest (fun b hb => h b (by simp [hb]))
    have h2 : ¬ (b1 % 16 * 4 + b2 / 64 = 64) := by omega
    have h3 : ¬ (b2 % 64 = 64) := by omega
    simp only [b64Symbols, b64Unsymbols, if_neg h2, if_neg h3, ih,
      List.cons.injEq]
    refine ⟨by omega, by omega, by omega, trivial⟩

/-- C1: for every byte sequence (including the empty one), decoding the
base64 text produced by encoding it yields the bytes back:
`_b64ToU8 (_u8ToB64 b) = b`. -/
theorem b64_roundtrip (u8 : List Nat) (h : ∀ b ∈ u8, b < 256) :
    b64ToU8 (u8ToB64 u8) = u8 := by
  unfold b64ToU8 u8ToB64
  rw [List.map_map]
  have hmap : (b64Symbols u8).map (b64Val ∘ b64Code) = b64Symbols u8 := by
    have := List.map_congr_left (l := b64Symbols u8)
      (f := b64Val ∘ b64Code) (g := id)
      (fun s hs => b64Val_b64Code s (b64Symbols_le u8 h s hs))
    simpa using this
  rw [hmap]
  exact b64Unsymbols_b64Symbols u8 h

/-- Witness for C1 at a concrete buffer (a 4-byte buffer exercising both a
full 3-byte group and a padded 1-byte tail). -/
theorem b64_roundtrip_witness :
    (∀ b ∈ [0, 1, 255, 77], b < 256) ∧
      b64ToU8 (u8ToB64 [0, 1, 255, 77]) = [0, 1, 255, 77] :=
  ⟨by decide, b64_roundtrip [0, 1, 255, 77] (by decide)⟩

/-! ## Data model

Keypoints and detection results as produced by `detectORB` /
`_serializeKeypoints` / `_serializeDescriptors`: a keypoint is a plain
record of numbers, a descriptor matrix is a row/column count plus a flat
byte buffer (row-major), and a detection result carries both together
with the source image dimensions. -/

structure Keypoint where
  x : ℚ
  y : ℚ
  size : ℚ
  angle : ℚ
  response : ℚ
  octave : Int
  class_id : Int
deriving Repr, DecidableEq

/-- Descriptor matrix with raw bytes, as held in a detect result
(`_serializeDescriptors` output: `{ rows, cols, data }`). -/
structure Descriptors where
  rows : Nat
  cols : Nat
  data : List Nat
deriving Repr, DecidableEq

/-- Output of `detectORB`: `{ keypoints, descriptors, width, height }`. -/
structure DetectResult where
  keypoints : List Keypoint
  descriptors : Option Descriptors
  width : ℚ
  height : ℚ
deriving Repr, DecidableEq

/-- Descriptor block of the persisted JSON document:
`{ rows, cols, data_b64 }`, the data as base64 text (ASCII codes). -/
structure B64Descriptors where
  rows : Nat
  cols : Nat
  data_b64 : List Nat
deriving Repr, DecidableEq

/-- The persisted feature file produced by `exportJSON` and consumed by
`importJSON`. -/
structure FeatureDoc where
  version : Nat
  type : String
  imageWidth : ℚ
  imageHeight : ℚ
  keypoints : List Keypoint
  descriptors : Option B64Descriptors
deriving Repr, DecidableEq

/-- The keypoint normalization performed inside `exportJSON`:
`{ ...kp, x: kp.x / width, y: kp.y / height }`. -/
def normalizeKp (width height : ℚ) (kp : Keypoint) : Keypoint :=
  { kp with x := kp.x / width, y := kp.y / height }

/-- Embeds `ORBModule.exportJSON` (first variant, `orb_module.js` lines 73–97):
normalizes the keypoints to `[0,1]` and base64-encodes the descriptor
bytes. -/
def exportJSON (r : DetectResult) : FeatureDoc :=
  { version := 1
    type := "ORB"
    imageWidth := r.width
    imageHeight := r.height
    keypoints := r.keypoints.map (normalizeKp r.width r.height)
    descriptors := r.descriptors.map fun d =>
      { rows := d.rows, cols := d.cols, data_b64 := u8ToB64 d.data } }

/-- Embeds `ORBModule.exportJSON` (second variant, `orb_module.js` lines
456–469): identical except that the keypoints are copied through
unchanged, without normalization. -/
def exportJSONv2 (r : DetectResult) : FeatureDoc :=
  { version := 1
    type := "ORB"
    imageWidth := r.width
    imageHeight := r.height
    keypoints := r.keypoints
    descriptors := r.descriptors.map fun d =>
      { rows := d.rows, cols := d.cols, data_b64 := u8ToB64 d.data } }

/-- Embeds `ORBModule.importJSON`: rejects a missing document or one whose
`type` is not the literal `"ORB"` (`throw new Error("Invalid features
JSON")`), otherwise rebuilds a detect result, decoding the descriptor
bytes from base64 and passing the keypoints through unchanged. -/
def importJSON (obj : Option FeatureDoc) : Except String DetectResult :=
  match obj with
  | none => .error "Invalid features JSON"
  | some o =>
    if o.type ≠ "ORB" then .error "Invalid features JSON"
    else .ok
      { width := o.imageWidth
        height := o.imageHeight
        keypoints := o.keypoints
        descriptors := o.descriptors.map fun d =>
          { rows := d.rows, cols := d.cols, data := b64ToU8 d.data_b64 } }

/-! ## Matcher

`matchToTarget` (first variant, `orb_module.js` lines 122–254) rebuilds
the source descriptor matrix from JSON, detects ORB features on the
target, runs a brute-force Hamming k-nearest-neighbor match with k = 2
(`cv.BFMatcher.knnMatch`), applies Lowe's ratio test, and estimates a
homography via RANSAC when at least 4 matches survive.

The brute-force matcher and `cv.findHomography` live in the external
OpenCV library, not in this repository; the k-NN search is modelled from
the spec (Hamming distance = bitwise popcount of XOR; two closest target
descriptors per source descriptor, ties broken by lowest target index)
and the RANSAC step is abstracted as an oracle parameter (the code only
inspects whether it produced a non-empty homography matrix). -/

/-- A correspondence as returned by the matcher: indices into the source
(`queryIdx`) and target (`trainIdx`) descriptor rows and the Hamming
distance between the two descriptors. -/
structure DMatch where
  queryIdx : Nat
  trainIdx : Nat
  distance : Nat
deriving Repr, DecidableEq

/-- Modelled from the spec: number of differing bits between two bytes
(popcount of their XOR, over the 8 bit positions of a `CV_8U` value). -/
def hammingByte (a b : Nat) : Nat :=
  (List.range 8).foldl
    (fun acc i => acc + if a / 2 ^ i % 2 = b / 2 ^ i % 2 then 0 else 1) 0

/-- Modelled from the spec: Hamming distance between two descriptor rows
(`cv.NORM_HAMMING`) — bitwise popcount of the bytewise XOR. -/
def hammingDist (a b : List Nat) : Nat :=
  (List.zipWith hammingByte a b).sum

/-- The candidate minimizing the distance (second component), ties broken
toward the earlier list position (for index-ordered candidates: the
lowest target index). -/
def minCand : List (Nat × Nat) → Option (Nat × Nat)
  | [] => none
  | c :: cs => some (cs.foldl (fun b x => if x.2 < b.2 then x else b) c)

/-- Modelled from the spec: the k = 2 nearest neighbors among the target
rows for one source row `q` at source index `qIdx` — the two closest
target descriptors under Hamming distance, ties broken by lowest target
index; fewer entries when the target has fewer than 2 rows. -/
def knn2For (q : List Nat) (qIdx : Nat) (tgt : List (List Nat)) :
    List DMatch :=
  let cands := tgt.enum.map fun p => (p.1, hammingDist q p.2)
  match minCand cands with
  | none => []
  | some m1 =>
    match minCand (cands.erase m1) with
    | none => [⟨qIdx, m1.1, m1.2⟩]
    | some m2 => [⟨qIdx, m1.1, m1.2⟩, ⟨qIdx, m2.1, m2.2⟩]

/-- Modelled from the spec: `bf.knnMatch(srcDesc, tgtDesc, knn, 2)` — one
candidate list per source descriptor row, in source row order. -/
def knnMatch2 (src tgt : List (List Nat)) : List (List DMatch) :=
  src.enum.map fun p => knn2For p.2 p.1 tgt

/-- Lowe's ratio test on one candidate list (`orb_module.js` lines
180–184): at least two candidates and `m.distance < ratio * n.distance`. -/
def passRatio (ratio : ℚ) : List DMatch → Bool
  | m :: n :: _ => decide ((m.distance : ℚ) < ratio * (n.distance : ℚ))
  | _ => false

/-- The `good` list built by the ratio-test loop (`orb_module.js` lines
174–188): the first (best) candidate of every candidate list that passes
the ratio test, in source row order. -/
def goodMatches (knn : List (List DMatch)) (ratio : ℚ) : List DMatch :=
  (knn.filter (passRatio ratio)).filterMap List.head?

/-- Descriptor block of the source JSON fed to `matchToTarget`: raw bytes
when `data` is present (in-memory detect result), otherwise the base64
text `data_b64` (imported file). -/
structure SourceDesc where
  rows : Nat
  cols : Nat
  data : Option (List Nat)
  data_b64 : List Nat
deriving Repr, DecidableEq

/-- The source JSON argument of `matchToTarget`. -/
structure SourceJson where
  keypoints : List Keypoint
  descriptors : Option SourceDesc
deriving Repr, DecidableEq

/-- Embeds `srcU8` in `matchToTarget`:
`descriptors.data ? new Uint8Array(data) : _b64ToU8(data_b64)`. -/
def srcBytes (d : SourceDesc) : List Nat :=
  match d.data with
  | some u8 => u8
  | none => b64ToU8 d.data_b64

/-- Embeds `cv.matFromArray(rows, cols, cv.CV_8U, srcU8)`: the flat byte buffer
cut into `rows` row-major rows of `cols` bytes. -/
def toRows (rows cols : Nat) (data : List Nat) : List (List Nat) :=
  (List.range rows).map fun i => (data.drop (i * cols)).take cols

/-- The source descriptor rows reconstructed by `matchToTarget`. -/
def srcRows (d : SourceDesc) : List (List Nat) :=
  toRows d.rows d.cols (srcBytes d)

/-- The value returned by `matchToTarget`:
`{ matches, homography, numInliers, inlierMask }`. -/
structure MatchResult where
  «matches» : List DMatch
  homography : Option (List ℚ)
  numInliers : Nat
  inlierMask : Option (List Bool)
deriving Repr, DecidableEq

/-- Embeds `ORBModule.matchToTarget` (first variant). `ransac` abstracts the
external `cv.findHomography(..., cv.RANSAC, ...)` call together with the
match-point assembly: given the surviving matches it returns the
flattened homography, inlier count and inlier mask, or `none` when the
returned matrix is empty (`Hmat.empty()`). The target descriptor rows
stand for the ORB detection on the target image, which is likewise
performed by the external library. Throws
`'Invalid features JSON: missing descriptors'` when the source
descriptors are missing or have zero rows or columns (`!rows || !cols`). -/
def matchToTarget (ransac : List DMatch → Option (List ℚ × Nat × List Bool))
    (sourceJson : SourceJson) (tgtDesc : List (List Nat)) (ratio : ℚ) :
    Except String MatchResult :=
  match sourceJson.descriptors with
  | none => .error "Invalid features JSON: missing descriptors"
  | some d =>
    if d.rows = 0 ∨ d.cols = 0 then
      .error "Invalid features JSON: missing descriptors"
    else
      let good := goodMatches (knnMatch2 (srcRows d) tgtDesc) ratio
      if 4 ≤ good.length then
        match ransac good with
        | some (h, inl, mask) =>
          .ok { «matches» := good, homography := some h,
                numInliers := inl, inlierMask := some mask }
        | none =>
          .ok { «matches» := good, homography := none,
                numInliers := 0, inlierMask := none }
      else
        .ok { «matches» := good, homography := none,
              numInliers := 0, inlierMask := none }

/-! ## Helper lemmas and concrete inputs -/

/-- A RANSAC oracle that always reports an empty homography matrix. -/
def ransac0 : List DMatch → Option (List ℚ × Nat × List Bool) := fun _ => none

/-- Source JSON with a single 1×1 descriptor `[0]` and no keypoints. -/
def sjOne : SourceJson := ⟨[], some ⟨1, 1, some [0], []⟩⟩

/-- Source JSON whose descriptor block has zero rows. -/
def sjZeroRows : SourceJson := ⟨[], some ⟨0, 32, some [], []⟩⟩

/-- A keypoint at pixel coordinates (5, 5). -/
def kpPix : Keypoint := ⟨5, 5, 31, -1, 0, 0, -1⟩

/-- Detect result: one keypoint at (5, 5) in a 10×10 image. -/
def rPix : DetectResult := ⟨[kpPix], none, 10, 10⟩

/-- Detect result with zero width and height. -/
def rZero : DetectResult := ⟨[kpPix], none, 0, 0⟩

/-- A 1×2 descriptor matrix. -/
def dDet : Descriptors := ⟨1, 2, [10, 200]⟩

/-- Detect result with one keypoint and a descriptor matrix. -/
def rDet : DetectResult := ⟨[kpPix], some dDet, 10, 10⟩

/-- A feature document whose `type` is not `"ORB"`. -/
def badDoc : FeatureDoc := ⟨1, "SIFT", 10, 10, [], none⟩

theorem passRatio_nil (r : ℚ) : passRatio r [] = false := rfl

theorem knn2For_nil (q : List Nat) (i : Nat) : knn2For q i [] = [] := rfl

theorem goodMatches_knn_nil (src : List (List Nat)) (r : ℚ) :
    goodMatches (knnMatch2 src []) r = [] := by
  unfold goodMatches knnMatch2
  have hall : ∀ v ∈ src.enum.map fun p => knn2For p.2 p.1 [],
      ¬ passRatio r v = true := by
    intro v hv
    rcases List.mem_map.mp hv with ⟨p, _, rfl⟩
    rw [knn2For_nil, passRatio_nil]
    exact Bool.false_ne_true
  rw [List.filter_eq_nil_iff.mpr hall]
  rfl

/-- In every `.ok` result of `matchToTarget`, the `matches` field is the
ratio-test survivor list built from the reconstructed source rows. -/
theorem matchToTarget_matches_eq
    (ransac : List DMatch → Option (List ℚ × Nat × List Bool))
    (sj : SourceJson) (tgtDesc : List (List Nat)) (ratio : ℚ)
    (res : MatchResult) (d : SourceDesc) (hd : sj.descriptors = some d)
    (hok : matchToTarget ransac sj tgtDesc ratio = .ok res) :
    res.«matches» = goodMatches (knnMatch2 (srcRows d) tgtDesc) ratio := by
  simp only [matchToTarget, hd] at hok
  by_cases h0 : d.rows = 0 ∨ d.cols = 0
  · rw [if_pos h0] at hok
    exact absurd hok (by simp)
  · rw [if_neg h0] at hok
    split at hok
    · split at hok
      · injection hok with h
        subst h
        rfl
      · injection hok with h
        subst h
        rfl
    · injection hok with h
      subst h
      rfl

/-- With valid source descriptors and fewer than 4 ratio-test survivors,
`matchToTarget` takes the no-homography branch. -/
theorem matchToTarget_ok_of_lt4
    (ransac : List DMatch → Option (List ℚ × Nat × List Bool))
    (sj : SourceJson) (tgtDesc : List (List Nat)) (ratio : ℚ)
    (d : SourceDesc) (hd : sj.descriptors = some d)
    (hrows : ¬ d.rows = 0) (hcols : ¬ d.cols = 0)
    (hlen : (goodMatches (knnMatch2 (srcRows d) tgtDesc) ratio).length < 4) :
    matchToTarget ransac sj tgtDesc ratio = .ok
      { «matches» := goodMatches (knnMatch2 (srcRows d) tgtDesc) ratio,
        homography := none, numInliers := 0, inlierMask := none } := by
  have h0 : ¬ (d.rows = 0 ∨ d.cols = 0) := by tauto
  simp only [matchToTarget, hd]
  rw [if_neg h0, if_neg (Nat.not_le.mpr hlen)]

/-! ## Claims -/

/-- C3: whenever fewer than 4 correspondences survive the ratio test,
`matchToTarget` returns normally (no exception) with `homography = null`
and `numInliers = 0`. -/
theorem matchToTarget_few_survivors
    (ransac : List DMatch → Option (List ℚ × Nat × List Bool))
    (sj : SourceJson) (tgtDesc : List (List Nat)) (ratio : ℚ)
    (d : SourceDesc) (hd : sj.descriptors = some d)
    (hrows : ¬ d.rows = 0) (hcols : ¬ d.cols = 0)
    (hlen : (goodMatches (knnMatch2 (srcRows d) tgtDesc) ratio).length < 4) :
    matchToTarget ransac sj tgtDesc ratio = .ok
      { «matches» := goodMatches (knnMatch2 (srcRows d) tgtDesc) ratio,
        homography := none, numInliers := 0, inlierMask := none } :=
  matchToTarget_ok_of_lt4 ransac sj tgtDesc ratio d hd hrows hcols hlen

/-- Witness for C3: one 1×1 source descriptor against one identical
target descriptor produces 0 survivors, and the call returns a null
homography and zero inliers. -/
theorem matchToTarget_few_survivors_witness :
    sjOne.descriptors = some ⟨1, 1, some [0], []⟩ ∧
    (goodMatches (knnMatch2 (srcRows ⟨1, 1, some [0], []⟩) [[0]])
        (3 / 4)).length < 4 ∧
    matchToTarget ransac0 sjOne [[0]] (3 / 4) = .ok
      { «matches» := goodMatches (knnMatch2 (srcRows ⟨1, 1, some [0], []⟩)
          [[0]]) (3 / 4),
        homography := none, numInliers := 0, inlierMask := none } :=
  ⟨rfl, by decide,
    matchToTarget_few_survivors ransac0 sjOne [[0]] (3 / 4) _ rfl
      (by decide) (by decide) (by decide)⟩

/-- C4 counterexample: a source descriptor set with zero rows does not
short-circuit with an empty correspondence list — `matchToTarget` raises
`'Invalid features JSON: missing descriptors'` (`!descriptors.rows` is
truthy for 0 rows). -/
theorem matchToTarget_zero_src_rows_throws :
    matchToTarget ransac0 sjZeroRows [[0]] (3 / 4) =
      .error "Invalid features JSON: missing descriptors" := rfl

/-- C4 amended: a target descriptor set with zero rows yields an empty
correspondence list and no exception, but a missing source descriptor
block, or one with zero rows or zero columns, raises
`'Invalid features JSON: missing descriptors'`. -/
theorem matchToTarget_empty_descriptors
    (ransac : List DMatch → Option (List ℚ × Nat × List Bool))
    (sj : SourceJson) (ratio : ℚ) :
    (∀ tgtDesc, (sj.descriptors = none ∨
        ∃ d, sj.descriptors = some d ∧ (d.rows = 0 ∨ d.cols = 0)) →
      matchToTarget ransac sj tgtDesc ratio =
        .error "Invalid features JSON: missing descriptors") ∧
    (∀ d, sj.descriptors = some d → ¬ d.rows = 0 → ¬ d.cols = 0 →
      matchToTarget ransac sj [] ratio = .ok
        { «matches» := [], homography := none, numInliers := 0,
          inlierMask := none }) := by
  constructor
  · intro tgtDesc hbad
    rcases hbad with hnone | ⟨d, hd, h0⟩
    · simp only [matchToTarget, hnone]
    · simp only [matchToTarget, hd]
      rw [if_pos h0]
  · intro d hd hrows hcols
    have h0 : ¬ (d.rows = 0 ∨ d.cols = 0) := by tauto
    simp only [matchToTarget, hd]
    rw [if_neg h0, goodMatches_knn_nil]
    rfl

/-- Witness for C4 amended: both branches at concrete inputs. -/
theorem matchToTarget_empty_descriptors_witness :
    matchToTarget ransac0 sjZeroRows [] (3 / 4) =
      .error "Invalid features JSON: missing descriptors" ∧
    matchToTarget ransac0 sjOne [] (3 / 4) = .ok
      { «matches» := [], homography := none, numInliers := 0,
        inlierMask := none } :=
  ⟨(matchToTarget_empty_descriptors ransac0 sjZeroRows (3 / 4)).1 []
      (Or.inr ⟨_, rfl, Or.inl rfl⟩),
    (matchToTarget_empty_descriptors ransac0 sjOne (3 / 4)).2 _ rfl
      (by decide) (by decide)⟩

/-- C6: `importJSON` rejects a missing document and any document whose
`type` is not the literal `"ORB"`, raising `'Invalid features JSON'`
instead of returning a result. -/
theorem importJSON_rejects_bad_type (obj : Option FeatureDoc)
    (h : ∀ o, obj = some o → o.type ≠ "ORB") :
    importJSON obj = .error "Invalid features JSON" := by
  cases obj with
  | none => rfl
  | some o => simp [importJSON, h o rfl]

/-- Witness for C6 at a document with `type = "SIFT"`. -/
theorem importJSON_rejects_bad_type_witness :
    (∀ o, some badDoc = some o → o.type ≠ "ORB") ∧
      importJSON (some badDoc) = .error "Invalid features JSON" :=
  ⟨fun o ho => by cases ho; decide,
    importJSON_rejects_bad_type (some badDoc)
      (fun o ho => by cases ho; decide)⟩

/-- C5: the first `exportJSON` variant normalizes the (5, 5) keypoint of
a 10×10 image to (1/2, 1/2), but the second variant exports it unchanged
at (5, 5) — a coordinate of a keypoint inside the image that lies outside
`[0, 1]`, contradicting the documented normalized export. -/
theorem exportJSON_variant_normalization :
    ((exportJSON rPix).keypoints.map fun kp => (kp.x, kp.y)) =
        [(1 / 2, 1 / 2)] ∧
    ((exportJSONv2 rPix).keypoints.map fun kp => (kp.x, kp.y)) =
        [(5, 5)] ∧
    ¬ ((5 : ℚ) ≤ 1) := by
  refine ⟨?_, by decide, by norm_num⟩
  simp only [exportJSON, rPix, kpPix, normalizeKp, List.map_map, List.map_cons,
    List.map_nil, Function.comp]
  norm_num

/-- C9 counterexample: `exportJSON` performs no dimension validation — at
width = height = 0 it still returns a well-formed `"ORB"` document (no
`InvalidDimension` failure exists in the code; in JavaScript the divided
coordinates become `Infinity`/`NaN`, not an exception). -/
theorem exportJSON_zero_dims_no_error :
    (exportJSON rZero).type = "ORB" ∧ (exportJSON rZero).imageWidth = 0 ∧
      (exportJSON rZero).imageHeight = 0 ∧
      (exportJSON rZero).keypoints.length = 1 :=
  ⟨rfl, rfl, rfl, rfl⟩

/-- C9 amended: the export normalization step requires nothing of the
image dimensions and signals no error: for every detect result, zero or
negative dimensions included, `exportJSON` returns a `"ORB"` document
with the input dimensions, every keypoint divided by width/height. -/
theorem exportJSON_total (r : DetectResult) :
    (exportJSON r).type = "ORB" ∧
      (exportJSON r).imageWidth = r.width ∧
      (exportJSON r).imageHeight = r.height ∧
      (exportJSON r).keypoints =
        r.keypoints.map (normalizeKp r.width r.height) :=
  ⟨rfl, rfl, rfl, rfl⟩

/-- C10: importing an exported detect result restores the width, height,
descriptor row/column counts and descriptor bytes exactly, and returns
the exported (normalized) keypoints unchanged — `importJSON` performs no
denormalization. -/
theorem importJSON_exportJSON_roundtrip (r : DetectResult)
    (d : Descriptors) (hd : r.descriptors = some d)
    (hbytes : ∀ b ∈ d.data, b < 256) :
    importJSON (some (exportJSON r)) = .ok
      { width := r.width, height := r.height,
        keypoints := r.keypoints.map (normalizeKp r.width r.height),
        descriptors := some ⟨d.rows, d.cols, d.data⟩ } := by
  simp [importJSON, exportJSON, hd, b64_roundtrip d.data hbytes]

/-- Witness for C10 at a concrete detect result with a 1×2 descriptor
matrix. -/
theorem importJSON_exportJSON_roundtrip_witness :
    rDet.descriptors = some dDet ∧ (∀ b ∈ dDet.data, b < 256) ∧
    importJSON (some (exportJSON rDet)) = .ok
      { width := rDet.width, height := rDet.height,
        keypoints := rDet.keypoints.map
          (normalizeKp rDet.width rDet.height),
        descriptors := some ⟨dDet.rows, dDet.cols, dDet.data⟩ } :=
  ⟨rfl, by decide, importJSON_exportJSON_roundtrip rDet dDet rfl (by decide)⟩

/-! ## A concrete two-descriptor match

Source descriptors `[7]` and `[1]` (one byte each) against target
descriptors `[0]` and `[255]`: both source rows survive the default
ratio test 0.75, with distances 3 and 1 in that (query) order. -/

/-- Source JSON with the 2×1 descriptor matrix `[[7], [1]]`. -/
def sj7 : SourceJson := ⟨[], some ⟨2, 1, some [7, 1], []⟩⟩

/-- Target descriptor rows `[[0], [255]]`. -/
def tgt7 : List (List Nat) := [[0], [255]]

theorem knn7_eval : knnMatch2 (srcRows ⟨2, 1, some [7, 1], []⟩) tgt7 =
    [[⟨0, 0, 3⟩, ⟨0, 1, 5⟩], [⟨1, 0, 1⟩, ⟨1, 1, 7⟩]] := by decide

theorem passRatio34_row0 : passRatio (3 / 4) [⟨0, 0, 3⟩, ⟨0, 1, 5⟩] = true := by
  simp only [passRatio, decide_eq_true_eq]
  norm_num

theorem passRatio34_row1 : passRatio (3 / 4) [⟨1, 0, 1⟩, ⟨1, 1, 7⟩] = true := by
  simp only [passRatio, decide_eq_true_eq]
  norm_num

theorem passRatio25_row0 : passRatio (2 / 5) [⟨0, 0, 3⟩, ⟨0, 1, 5⟩] = false := by
  simp only [passRatio, decide_eq_false_iff_not]
  norm_num

theorem passRatio25_row1 : passRatio (2 / 5) [⟨1, 0, 1⟩, ⟨1, 1, 7⟩] = true := by
  simp only [passRatio, decide_eq_true_eq]
  norm_num

theorem good7_34 : goodMatches (knnMatch2 (srcRows ⟨2, 1, some [7, 1], []⟩)
    tgt7) (3 / 4) = [⟨0, 0, 3⟩, ⟨1, 0, 1⟩] := by
  rw [goodMatches, knn7_eval]
  simp [List.filter_cons, passRatio34_row0, passRatio34_row1,
    List.filterMap_cons]

theorem good7_25 : goodMatches (knnMatch2 (srcRows ⟨2, 1, some [7, 1], []⟩)
    tgt7) (2 / 5) = [⟨1, 0, 1⟩] := by
  rw [goodMatches, knn7_eval]
  simp [List.filter_cons, passRatio25_row0, passRatio25_row1,
    List.filterMap_cons]

theorem match7_34 : matchToTarget ransac0 sj7 tgt7 (3 / 4) =
    .ok { «matches» := [⟨0, 0, 3⟩, ⟨1, 0, 1⟩], homography := none,
          numInliers := 0, inlierMask := none } := by
  have h := matchToTarget_ok_of_lt4 ransac0 sj7 tgt7 (3 / 4)
    ⟨2, 1, some [7, 1], []⟩ rfl (by decide) (by decide)
    (by rw [good7_34]; decide)
  rw [good7_34] at h
  exact h

theorem match7_25 : matchToTarget ransac0 sj7 tgt7 (2 / 5) =
    .ok { «matches» := [⟨1, 0, 1⟩], homography := none,
          numInliers := 0, inlierMask := none } := by
  have h := matchToTarget_ok_of_lt4 ransac0 sj7 tgt7 (2 / 5)
    ⟨2, 1, some [7, 1], []⟩ rfl (by decide) (by decide)
    (by rw [good7_25]; decide)
  rw [good7_25] at h
  exact h

/-! ## Ratio-test monotonicity -/

theorem passRatio_mono (r1 r2 : ℚ) (h : r1 ≤ r2) (v : List DMatch)
    (hv : passRatio r1 v = true) : passRatio r2 v = true := by
  match v with
  | [] => exact absurd hv (by simp [passRatio])
  | [m] => exact absurd hv (by simp [passRatio])
  | m :: n :: rest =>
    simp only [passRatio, decide_eq_true_eq] at hv ⊢
    exact lt_of_lt_of_le hv
      (mul_le_mul_of_nonneg_right h (Nat.cast_nonneg _))

theorem goodMatches_mono (knn : List (List DMatch)) (r1 r2 : ℚ)
    (h : r1 ≤ r2) : goodMatches knn r1 <+ goodMatches knn r2 :=
  List.Sublist.filterMap _
    (List.monotone_filter_right _ fun v hv => passRatio_mono r1 r2 h v hv)

/-- C8: for fixed source and target descriptors, the ratio-test filter is
monotone in `ratio`: with `r1 ≤ r2` the survivors at `r1` form a sublist
(hence a subset) of the survivors at `r2`, so decreasing the ratio never
increases the number of surviving correspondences. -/
theorem matchToTarget_ratio_monotone
    (ransac1 ransac2 : List DMatch → Option (List ℚ × Nat × List Bool))
    (sj : SourceJson) (tgtDesc : List (List Nat)) (r1 r2 : ℚ)
    (res1 res2 : MatchResult) (h12 : r1 ≤ r2)
    (h1 : matchToTarget ransac1 sj tgtDesc r1 = .ok res1)
    (h2 : matchToTarget ransac2 sj tgtDesc r2 = .ok res2) :
    res1.«matches» <+ res2.«matches» ∧
      res1.«matches».length ≤ res2.«matches».length := by
  cases hds : sj.descriptors with
  | none =>
    rw [matchToTarget, hds] at h1
    exact absurd h1 (by simp)
  | some d =>
    rw [matchToTarget_matches_eq ransac1 sj tgtDesc r1 res1 d hds h1,
      matchToTarget_matches_eq ransac2 sj tgtDesc r2 res2 d hds h2]
    have hsub := goodMatches_mono (knnMatch2 (srcRows d) tgtDesc) r1 r2 h12
    exact ⟨hsub, hsub.length_le⟩

/-- Witness for C8: on the concrete two-descriptor input, tightening the
ratio from 3/4 to 2/5 shrinks the survivor list from two entries to one,
a sublist of the former. -/
theorem matchToTarget_ratio_monotone_witness :
    ((2 : ℚ) / 5 ≤ 3 / 4) ∧
    ([⟨1, 0, 1⟩] : List DMatch) <+ [⟨0, 0, 3⟩, ⟨1, 0, 1⟩] ∧
    ([⟨1, 0, 1⟩] : List DMatch).length ≤
      ([⟨0, 0, 3⟩, ⟨1, 0, 1⟩] : List DMatch).length := by
  have h := matchToTarget_ratio_monotone ransac0 ransac0 sj7 tgt7
    (2 / 5) (3 / 4)
    { «matches» := [⟨1, 0, 1⟩], homography := none,
      numInliers := 0, inlierMask := none }
    { «matches» := [⟨0, 0, 3⟩, ⟨1, 0, 1⟩], homography := none,
      numInliers := 0, inlierMask := none }
    (by norm_num) match7_25 match7_34
  exact ⟨by norm_num, h.1, h.2⟩

/-! ## Query order of the match list -/

theorem knn2For_queryIdx (q : List Nat) (i : Nat) (tgt : List (List Nat)) :
    ∀ m ∈ knn2For q i tgt, m.queryIdx = i := by
  intro m hm
  simp only [knn2For] at hm
  split at hm
  · simp at hm
  · split at hm
    · simp only [List.mem_cons, List.not_mem_nil, or_false] at hm
      subst hm
      rfl
    · simp only [List.mem_cons, List.not_mem_nil, or_false] at hm
      rcases hm with rfl | rfl <;> rfl

theorem head?_knn2For (q : List Nat) (i : Nat) (tgt : List (List Nat))
    (m : DMatch) (h : (knn2For q i tgt).head? = some m) : m.queryIdx = i := by
  have hm : m ∈ knn2For q i tgt := by
    cases hl : knn2For q i tgt with
    | nil => rw [hl] at h; simp at h
    | cons a t =>
      rw [hl] at h
      simp only [List.head?_cons, Option.some.injEq] at h
      subst h
      exact List.mem_cons_self _ _
  exact knn2For_queryIdx q i tgt m hm

theorem enumFrom_knn_query_sublist (tgt : List (List Nat)) :
    ∀ (src : List (List Nat)) (n : Nat),
      ((((List.enumFrom n src).map fun p => knn2For p.2 p.1 tgt).filterMap
          List.head?).map DMatch.queryIdx) <+ List.range' n src.length
  | [], n => by simp
  | a :: src, n => by
    rw [List.enumFrom_cons, List.map_cons, List.filterMap_cons,
      List.length_cons, List.range'_succ]
    cases hh : (knn2For a n tgt).head? with
    | none =>
      exact (enumFrom_knn_query_sublist tgt src (n + 1)).cons n
    | some m =>
      rw [List.map_cons, head?_knn2For a n tgt m hh]
      exact (enumFrom_knn_query_sublist tgt src (n + 1)).cons₂ n

theorem goodMatches_query_sublist (src tgt : List (List Nat)) (ratio : ℚ) :
    (goodMatches (knnMatch2 src tgt) ratio).map DMatch.queryIdx <+
      List.range src.length := by
  have h1 : goodMatches (knnMatch2 src tgt) ratio <+
      (knnMatch2 src tgt).filterMap List.head? :=
    List.Sublist.filterMap _ (List.filter_sublist _)
  have h2 := h1.map DMatch.queryIdx
  rw [List.range_eq_range']
  exact h2.trans (enumFrom_knn_query_sublist tgt src 0)

theorem srcRows_length (d : SourceDesc) : (srcRows d).length = d.rows := by
  simp [srcRows, toRows]

/-- C7 counterexample: on source descriptors `[[7], [1]]` and target
descriptors `[[0], [255]]` with the default ratio 0.75, `matchToTarget`
returns the match list with distances `[3, 1]` — not ordered by ascending
distance. -/
theorem matchToTarget_matches_unsorted :
    matchToTarget ransac0 sj7 tgt7 (3 / 4) =
      .ok { «matches» := [⟨0, 0, 3⟩, ⟨1, 0, 1⟩], homography := none,
            numInliers := 0, inlierMask := none } ∧
    ¬ (([⟨0, 0, 3⟩, ⟨1, 0, 1⟩] : List DMatch).map
        DMatch.distance).Sorted (· ≤ ·) :=
  ⟨match7_34, by decide⟩

/-- C7 amended: the correspondence list returned by `matchToTarget` is
ordered by ascending source descriptor index (query order) — its
`queryIdx` projection is a sublist of `0, 1, …, rows-1` — not by
ascending distance. -/
theorem matchToTarget_query_order
    (ransac : List DMatch → Option (List ℚ × Nat × List Bool))
    (sj : SourceJson) (tgtDesc : List (List Nat)) (ratio : ℚ)
    (res : MatchResult) (d : SourceDesc) (hd : sj.descriptors = some d)
    (hok : matchToTarget ransac sj tgtDesc ratio = .ok res) :
    res.«matches».map DMatch.queryIdx <+ List.range d.rows := by
  rw [matchToTarget_matches_eq ransac sj tgtDesc ratio res d hd hok]
  have h := goodMatches_query_sublist (srcRows d) tgtDesc ratio
  rwa [srcRows_length] at h

/-- Witness for C7 amended on the concrete two-descriptor input: query
indices `[0, 1]` form a sublist of `range 2`. -/
theorem matchToTarget_query_order_witness :
    (([⟨0, 0, 3⟩, ⟨1, 0, 1⟩] : List DMatch).map DMatch.queryIdx) <+
      List.range 2 :=
  matchToTarget_query_order ransac0 sj7 tgt7 (3 / 4)
    { «matches» := [⟨0, 0, 3⟩, ⟨1, 0, 1⟩], homography := none,
      numInliers := 0, inlierMask := none }
    ⟨2, 1, some [7, 1], []⟩ rfl match7_34

/-! ## Ratio-test membership characterization -/

/-- The empty match result. -/
def emptyRes : MatchResult := ⟨[], none, 0, none⟩

theorem mem_goodMatches (m : DMatch) (knn : List (List DMatch)) (r : ℚ) :
    m ∈ goodMatches knn r ↔
      ∃ v ∈ knn, passRatio r v = true ∧ v.head? = some m := by
  simp only [goodMatches, List.mem_filterMap, List.mem_filter]
  constructor
  · rintro ⟨v, ⟨hv, hp⟩, hh⟩
    exact ⟨v, hv, hp, hh⟩
  · rintro ⟨v, hv, hp, hh⟩
    exact ⟨v, ⟨hv, hp⟩, hh⟩

theorem passRatio_iff (r : ℚ) (v : List DMatch) :
    passRatio r v = true ↔
      ∃ m n rest, v = m :: n :: rest ∧
        (m.distance : ℚ) < r * (n.distance : ℚ) := by
  match v with
  | [] => simp [passRatio]
  | [m] => simp [passRatio]
  | m :: n :: rest =>
    simp only [passRatio, decide_eq_true_eq]
    constructor
    · intro h
      exact ⟨m, n, rest, rfl, h⟩
    · rintro ⟨m', n', rest', heq, h⟩
      simp only [List.cons.injEq] at heq
      obtain ⟨rfl, rfl, rfl⟩ := heq
      exact h

theorem knnMatch2_getElem? (src tgt : List (List Nat)) (i : Nat) :
    (knnMatch2 src tgt)[i]? = (src[i]?).map fun q => knn2For q i tgt := by
  simp only [knnMatch2, List.getElem?_map, List.getElem?_enum]
  cases src[i]? <;> rfl

theorem mem_knnMatch2 (v : List DMatch) (src tgt : List (List Nat))
    (hv : v ∈ knnMatch2 src tgt) :
    ∃ i q, src[i]? = some q ∧ v = knn2For q i tgt := by
  rcases List.mem_map.mp hv with ⟨p, hp, rfl⟩
  rcases p with ⟨i, q⟩
  have hq : src[i]? = some q := List.mem_enum_iff_getElem?.mp hp
  exact ⟨i, q, hq, rfl⟩

/-- C2: in every successful `matchToTarget` result, source descriptor row
`i` contributes a correspondence exactly when its candidate list has at
least two neighbors and the nearest distance is strictly below `ratio`
times the second-nearest distance; rows with fewer than two candidates
(in particular every row when the target has a single descriptor)
contribute nothing. -/
theorem matchToTarget_ratio_test
    (ransac : List DMatch → Option (List ℚ × Nat × List Bool))
    (sj : SourceJson) (tgtDesc : List (List Nat)) (ratio : ℚ)
    (res : MatchResult) (d : SourceDesc) (hd : sj.descriptors = some d)
    (hok : matchToTarget ransac sj tgtDesc ratio = .ok res) (i : Nat) :
    (∃ m ∈ res.«matches», m.queryIdx = i) ↔
      ∃ q, (srcRows d)[i]? = some q ∧
        ∃ m n rest, knn2For q i tgtDesc = m :: n :: rest ∧
          (m.distance : ℚ) < ratio * (n.distance : ℚ) := by
  rw [matchToTarget_matches_eq ransac sj tgtDesc ratio res d hd hok]
  constructor
  · rintro ⟨m, hm, hqi⟩
    rcases (mem_goodMatches m _ ratio).mp hm with ⟨v, hv, hp, hh⟩
    rcases mem_knnMatch2 v (srcRows d) tgtDesc hv with ⟨j, q, hq, rfl⟩
    have hji : j = i := by
      rw [← hqi, head?_knn2For q j tgtDesc m hh]
    subst hji
    rcases (passRatio_iff ratio _).mp hp with ⟨m2, n, rest, hform, hlt⟩
    exact ⟨q, hq, m2, n, rest, hform, hlt⟩
  · rintro ⟨q, hq, m, n, rest, hform, hlt⟩
    refine ⟨m, ?_, ?_⟩
    · apply (mem_goodMatches m _ ratio).mpr
      refine ⟨knn2For q i tgtDesc, ?_, ?_, ?_⟩
      · apply List.getElem?_mem (n := i)
        rw [knnMatch2_getElem?, hq]
        rfl
      · exact (passRatio_iff ratio _).mpr ⟨m, n, rest, hform, hlt⟩
      · rw [hform]
        rfl
    · apply knn2For_queryIdx q i tgtDesc m
      rw [hform]
      exact List.mem_cons_self _ _

/-- Witness for C2: a single 1×1 source descriptor against a single
identical target descriptor (Hamming distance 0) — the candidate list has
one entry, so no correspondence is contributed and the match list is
empty. -/
theorem matchToTarget_ratio_test_witness :
    ((∃ m ∈ emptyRes.«matches», m.queryIdx = 0) ↔
      ∃ q, (srcRows ⟨1, 1, some [0], []⟩)[0]? = some q ∧
        ∃ m n rest, knn2For q 0 [[0]] = m :: n :: rest ∧
          (m.distance : ℚ) < 3 / 4 * (n.distance : ℚ)) :=
  matchToTarget_ratio_test ransac0 sjOne [[0]] (3 / 4) emptyRes
    ⟨1, 1, some [0], []⟩ rfl rfl 0

end OrbMatcher
